import Mathlib

/-!
Verification of the OAuth application record component (`model/oauth.go`):
field validation, lifecycle stamping, sanitization, redirect-URL whitelist
matching, etag derivation, and JSON serialization round trips.

Modelling conventions:
* Go strings are Lean `String`; Go `len(s)` (a byte count) is `String.utf8ByteSize`,
  and `utf8.RuneCountInString` is `String.length`.
* Go `int64` timestamps are `Int` (no claim depends on 64-bit overflow).
* External capabilities that live outside this file's source (`NewId`, `GetMillis`,
  `Etag(id, t)`) are passed as explicit arguments to the operations that call them.
* The `encoding/json` text layer is abstracted as the identity on an explicit
  JSON value tree `JValue`: `json.Marshal` produces the tree and
  `json.Decoder.Decode` consumes a parse result `Option JValue`, where `none`
  stands for input that fails textual JSON parsing.
-/

/-- Modelled from the spec: the external `Fail(code, context)` capability
(`NewLocAppError` in the source, which is not under `src/`) yields a structured
error carrying a machine-readable code and a free-text context string; the
source additionally records the location of the failing check and a (always
`nil` here) translation-parameter map. -/
structure AppError where
  location : String
  errId : String
  params : Option Unit
  details : String
deriving DecidableEq

/-- Modelled from the spec: constructor for the structured error capability. -/
def NewLocAppError (location errId : String) (params : Option Unit) (details : String) : AppError :=
  ⟨location, errId, params, details⟩

/-- Modelled from the spec: `IsValidHttpUrl` is repository code that is not under
`src/`. The spec defines a valid absolute HTTP(S) URL as one that parses as a URL,
whose scheme is `http` or `https`, and that has a non-empty host. We model this as:
the string starts with `http://` or `https://` and the remainder is a non-empty
host part, i.e. it is non-empty and does not immediately start with `/`. -/
def IsValidHttpUrl (url : String) : Bool :=
  if "http://".data.isPrefixOf url.data then
    hostPart (url.data.drop 7)
  else if "https://".data.isPrefixOf url.data then
    hostPart (url.data.drop 8)
  else
    false
where
  /-- The part after the scheme must begin with a non-empty host: it is
  non-empty and does not immediately continue with a path slash. -/
  hostPart : List Char → Bool
  | [] => false
  | c :: _ => c != '/'

/-- `StringArray` from the source is an ordered sequence of strings. -/
abbrev StringArray := List String

/-- Go's `fmt.Sprintf("%s", a.CallbackUrls)` for a string slice: the elements
joined by single spaces, wrapped in square brackets. -/
def sprintfStringArray (l : StringArray) : String :=
  "[" ++ String.intercalate " " l ++ "]"

/-- The `OAuthApp` record, with the source's eleven fields. -/
structure OAuthApp where
  id : String
  creatorId : String
  createAt : Int
  updateAt : Int
  clientSecret : String
  name : String
  description : String
  iconURL : String
  callbackUrls : StringArray
  homepage : String
  isTrusted : Bool
deriving DecidableEq

/-- The Go zero value of `OAuthApp` (what `var app OAuthApp` starts from). -/
def OAuthApp.empty : OAuthApp :=
  ⟨"", "", 0, 0, "", "", "", "", [], "", false⟩

/-- `IsValid` validates the app: the source's eleven checks, in source order,
returning the first failure. -/
def OAuthApp.IsValid (a : OAuthApp) : Option AppError :=
  if a.id.utf8ByteSize ≠ 26 then
    some (NewLocAppError "OAuthApp.IsValid" "model.oauth.is_valid.app_id.app_error" none "")
  else if a.createAt = 0 then
    some (NewLocAppError "OAuthApp.IsValid" "model.oauth.is_valid.create_at.app_error" none ("app_id=" ++ a.id))
  else if a.updateAt = 0 then
    some (NewLocAppError "OAuthApp.IsValid" "model.oauth.is_valid.update_at.app_error" none ("app_id=" ++ a.id))
  else if a.creatorId.utf8ByteSize ≠ 26 then
    some (NewLocAppError "OAuthApp.IsValid" "model.oauth.is_valid.creator_id.app_error" none ("app_id=" ++ a.id))
  else if a.clientSecret.utf8ByteSize = 0 ∨ a.clientSecret.utf8ByteSize > 128 then
    some (NewLocAppError "OAuthApp.IsValid" "model.oauth.is_valid.client_secret.app_error" none ("app_id=" ++ a.id))
  else if a.name.utf8ByteSize = 0 ∨ a.name.utf8ByteSize > 64 then
    some (NewLocAppError "OAuthApp.IsValid" "model.oauth.is_valid.name.app_error" none ("app_id=" ++ a.id))
  else if a.callbackUrls.length = 0 ∨ (sprintfStringArray a.callbackUrls).utf8ByteSize > 1024 then
    some (NewLocAppError "OAuthApp.IsValid" "model.oauth.is_valid.callback.app_error" none ("app_id=" ++ a.id))
  else if (a.callbackUrls.find? (fun callback => ! IsValidHttpUrl callback)).isSome then
    some (NewLocAppError "OAuthApp.IsValid" "model.oauth.is_valid.callback.app_error" none "")
  else
    if a.homepage.utf8ByteSize = 0 ∨ a.homepage.utf8ByteSize > 256 ∨ IsValidHttpUrl a.homepage = false then
      some (NewLocAppError "OAuthApp.IsValid" "model.oauth.is_valid.homepage.app_error" none ("app_id=" ++ a.id))
    else if a.description.length > 512 then
      some (NewLocAppError "OAuthApp.IsValid" "model.oauth.is_valid.description.app_error" none ("app_id=" ++ a.id))
    else if a.iconURL.utf8ByteSize > 0 ∧ (a.iconURL.utf8ByteSize > 512 ∨ IsValidHttpUrl a.iconURL = false) then
      some (NewLocAppError "OAuthApp.IsValid" "model.oauth.is_valid.icon_url.app_error" none ("app_id=" ++ a.id))
    else
      none

/-- `Sanitize` removes private data: it clears `clientSecret`. -/
def OAuthApp.Sanitize (a : OAuthApp) : OAuthApp :=
  { a with clientSecret := "" }

/-- `IsValidRedirectURL`: scans `callbackUrls` for an exact string match. -/
def OAuthApp.IsValidRedirectURL (a : OAuthApp) (url : String) : Bool :=
  a.callbackUrls.any (fun u => u == url)

/-- `PreSave` sets `id` and `clientSecret` if missing and stamps both
timestamps. The external `NewId()` generator results and the `GetMillis()`
reading are passed as arguments `newId`, `newSecret`, `millis`. -/
def OAuthApp.PreSave (a : OAuthApp) (newId newSecret : String) (millis : Int) : OAuthApp :=
  let a1 := if a.id = "" then { a with id := newId } else a
  let a2 := if a1.clientSecret = "" then { a1 with clientSecret := newSecret } else a1
  { a2 with createAt := millis, updateAt := millis }

/-- `PreUpdate` stamps `updateAt` with the current `GetMillis()` reading. -/
def OAuthApp.PreUpdate (a : OAuthApp) (millis : Int) : OAuthApp :=
  { a with updateAt := millis }

/-- `Etag` calls the external `Etag(id, updateAt)` capability, passed as
`computeEtag`, with the record's current `id` and `updateAt` fields. -/
def OAuthApp.Etag (computeEtag : String → Int → String) (a : OAuthApp) : String :=
  computeEtag a.id a.updateAt

/-- The validation procedure exactly as the spec words it (§4.1): the eleven
rules in the listed order, first failure wins. Stated positively: each rule is
the condition a valid record satisfies, and its failure is reported when the
rule is the first one violated. Compared with `OAuthApp.IsValid` in claim C2. -/
def validateSpec (a : OAuthApp) : Option AppError :=
  if a.id.utf8ByteSize = 26 then
    if a.createAt ≠ 0 then
      if a.updateAt ≠ 0 then
        if a.creatorId.utf8ByteSize = 26 then
          if 1 ≤ a.clientSecret.utf8ByteSize ∧ a.clientSecret.utf8ByteSize ≤ 128 then
            if 1 ≤ a.name.utf8ByteSize ∧ a.name.utf8ByteSize ≤ 64 then
              if a.callbackUrls ≠ [] ∧ (sprintfStringArray a.callbackUrls).utf8ByteSize ≤ 1024 then
                if a.callbackUrls.all (fun callback => IsValidHttpUrl callback) then
                  if 1 ≤ a.homepage.utf8ByteSize ∧ a.homepage.utf8ByteSize ≤ 256 ∧ IsValidHttpUrl a.homepage = true then
                    if a.description.length ≤ 512 then
                      if 1 ≤ a.iconURL.utf8ByteSize → (a.iconURL.utf8ByteSize ≤ 512 ∧ IsValidHttpUrl a.iconURL = true) then
                        none
                      else
                        some (NewLocAppError "OAuthApp.IsValid" "model.oauth.is_valid.icon_url.app_error" none ("app_id=" ++ a.id))
                    else
                      some (NewLocAppError "OAuthApp.IsValid" "model.oauth.is_valid.description.app_error" none ("app_id=" ++ a.id))
                  else
                    some (NewLocAppError "OAuthApp.IsValid" "model.oauth.is_valid.homepage.app_error" none ("app_id=" ++ a.id))
                else
                  some (NewLocAppError "OAuthApp.IsValid" "model.oauth.is_valid.callback.app_error" none "")
              else
                some (NewLocAppError "OAuthApp.IsValid" "model.oauth.is_valid.callback.app_error" none ("app_id=" ++ a.id))
            else
              some (NewLocAppError "OAuthApp.IsValid" "model.oauth.is_valid.name.app_error" none ("app_id=" ++ a.id))
          else
            some (NewLocAppError "OAuthApp.IsValid" "model.oauth.is_valid.client_secret.app_error" none ("app_id=" ++ a.id))
        else
          some (NewLocAppError "OAuthApp.IsValid" "model.oauth.is_valid.creator_id.app_error" none ("app_id=" ++ a.id))
      else
        some (NewLocAppError "OAuthApp.IsValid" "model.oauth.is_valid.update_at.app_error" none ("app_id=" ++ a.id))
    else
      some (NewLocAppError "OAuthApp.IsValid" "model.oauth.is_valid.create_at.app_error" none ("app_id=" ++ a.id))
  else
    some (NewLocAppError "OAuthApp.IsValid" "model.oauth.is_valid.app_id.app_error" none "")

/-- An injection from `Int` into `String`, used to witness that an injective
external etag encoding propagates through `OAuthApp.Etag`. -/
def intTag (t : Int) : String :=
  String.mk ((if 0 ≤ t then 'p' else 'n') :: List.replicate t.natAbs 'x')

/-- JSON value trees: the image of `encoding/json` text parsing. -/
inductive JValue where
  | jnull
  | jbool (b : Bool)
  | jint (n : Int)
  | jstr (s : String)
  | jarr (elems : List JValue)
  | jobj (fields : List (String × JValue))

/-- `encoding/json` unmarshalling into a `string` field: a JSON string
replaces the current value, `null` is a no-op, anything else errors. -/
def decodeJString (v : JValue) (cur : String) : Option String :=
  match v with
  | .jstr s => some s
  | .jnull => some cur
  | _ => none

/-- Unmarshalling into an `int64` field: a number replaces the value, `null`
is a no-op, anything else errors. -/
def decodeJInt (v : JValue) (cur : Int) : Option Int :=
  match v with
  | .jint n => some n
  | .jnull => some cur
  | _ => none

/-- Unmarshalling into a `bool` field. -/
def decodeJBool (v : JValue) (cur : Bool) : Option Bool :=
  match v with
  | .jbool b => some b
  | .jnull => some cur
  | _ => none

/-- Unmarshalling one element of a `[]string`: `null` yields the zero string. -/
def decodeJStringElem (v : JValue) : Option String :=
  match v with
  | .jstr s => some s
  | .jnull => some ""
  | _ => none

def decodeStringElems : List JValue → Option (List String)
  | [] => some []
  | v :: rest =>
    match decodeJStringElem v with
    | some s => (decodeStringElems rest).map (fun l => s :: l)
    | none => none

/-- Unmarshalling into a `[]string` field: an array decodes elementwise,
`null` sets the slice to nil, anything else errors. -/
def decodeJStringArray (v : JValue) : Option (List String) :=
  match v with
  | .jarr es => decodeStringElems es
  | .jnull => some []
  | _ => none

/-- `encoding/json` key matching: the struct tags here are all lowercase and
pairwise distinct case-insensitively, so a key matches a tag exactly when its
ASCII lowercasing equals the tag. -/
def lowerKey (k : String) : String :=
  String.mk (k.data.map Char.toLower)

/-- One `"key": value` pair applied to the struct being decoded: the matching
field is updated, unknown keys are ignored, a mismatched value type errors. -/
def applyField (a : OAuthApp) (k : String) (v : JValue) : Option OAuthApp :=
  if lowerKey k = "id" then (decodeJString v a.id).map (fun s => { a with id := s })
  else if lowerKey k = "creator_id" then (decodeJString v a.creatorId).map (fun s => { a with creatorId := s })
  else if lowerKey k = "create_at" then (decodeJInt v a.createAt).map (fun n => { a with createAt := n })
  else if lowerKey k = "update_at" then (decodeJInt v a.updateAt).map (fun n => { a with updateAt := n })
  else if lowerKey k = "client_secret" then (decodeJString v a.clientSecret).map (fun s => { a with clientSecret := s })
  else if lowerKey k = "name" then (decodeJString v a.name).map (fun s => { a with name := s })
  else if lowerKey k = "description" then (decodeJString v a.description).map (fun s => { a with description := s })
  else if lowerKey k = "icon_url" then (decodeJString v a.iconURL).map (fun s => { a with iconURL := s })
  else if lowerKey k = "callback_urls" then (decodeJStringArray v).map (fun l => { a with callbackUrls := l })
  else if lowerKey k = "homepage" then (decodeJString v a.homepage).map (fun s => { a with homepage := s })
  else if lowerKey k = "is_trusted" then (decodeJBool v a.isTrusted).map (fun b => { a with isTrusted := b })
  else some a

/-- The decoder walks the object's pairs in order (later duplicates overwrite
earlier ones) and fails as soon as one pair fails. -/
def decodeFields : OAuthApp → List (String × JValue) → Option OAuthApp
  | a, [] => some a
  | a, (k, v) :: rest =>
    match applyField a k v with
    | some a2 => decodeFields a2 rest
    | none => none

/-- Unmarshalling a JSON value into an `OAuthApp` struct variable: an object
decodes field by field, `null` is a no-op on the zero value, anything else
errors. -/
def decodeOAuthApp : JValue → Option OAuthApp
  | .jobj fields => decodeFields OAuthApp.empty fields
  | .jnull => some OAuthApp.empty
  | _ => none

/-- `OAuthAppFromJson`: decodes the reader's parse result (`none` models text
that fails JSON parsing) and returns `nil` exactly when `Decode` errors. -/
def OAuthAppFromJson (data : Option JValue) : Option OAuthApp :=
  match data with
  | some v => decodeOAuthApp v
  | none => none

/-- `ToJson` (`json.Marshal` of the struct): an object carrying the eleven
JSON tags in struct order. -/
def OAuthApp.ToJson (a : OAuthApp) : JValue :=
  .jobj [("id", .jstr a.id), ("creator_id", .jstr a.creatorId),
    ("create_at", .jint a.createAt), ("update_at", .jint a.updateAt),
    ("client_secret", .jstr a.clientSecret), ("name", .jstr a.name),
    ("description", .jstr a.description), ("icon_url", .jstr a.iconURL),
    ("callback_urls", .jarr (a.callbackUrls.map JValue.jstr)),
    ("homepage", .jstr a.homepage), ("is_trusted", .jbool a.isTrusted)]

/-- Unmarshalling a `*OAuthApp`: `null` yields the nil pointer. -/
def decodePtrOAuthApp : JValue → Option (Option OAuthApp)
  | .jnull => some none
  | v => (decodeOAuthApp v).map some

/-- Go map assignment: a later entry with an existing key overwrites it. -/
def mapInsert (m : List (String × Option OAuthApp)) (k : String) (v : Option OAuthApp) :
    List (String × Option OAuthApp) :=
  match m with
  | [] => [(k, v)]
  | (k2, v2) :: rest => if k2 = k then (k, v) :: rest else (k2, v2) :: mapInsert rest k v

def decodeMapEntries (acc : List (String × Option OAuthApp)) :
    List (String × JValue) → Option (List (String × Option OAuthApp))
  | [] => some acc
  | (k, v) :: rest =>
    match decodePtrOAuthApp v with
    | some x => decodeMapEntries (mapInsert acc k x) rest
    | none => none

/-- `OAuthAppMapFromJson`: an object decodes into the map entry by entry; on
`null` Go leaves the map nil, and on any other value `Decode` errors — both
observed by the caller as the nil map (absence). -/
def OAuthAppMapFromJson (data : Option JValue) : Option (List (String × Option OAuthApp)) :=
  match data with
  | some (.jobj fields) => decodeMapEntries [] fields
  | _ => none

def decodePtrElems : List JValue → Option (List (Option OAuthApp))
  | [] => some []
  | v :: rest =>
    match decodePtrOAuthApp v with
    | some x => (decodePtrElems rest).map (fun l => x :: l)
    | none => none

/-- `OAuthAppListFromJson`: an array decodes into the slice element by
element; on `null` Go leaves the slice nil, and on any other value `Decode`
errors — both observed by the caller as the nil slice (absence). -/
def OAuthAppListFromJson (data : Option JValue) : Option (List (Option OAuthApp)) :=
  match data with
  | some (.jarr elems) => decodePtrElems elems
  | _ => none

/-- `OAuthAppListToJson` (`json.Marshal` of `[]*OAuthApp`): nil pointers
marshal to `null`. -/
def OAuthAppListToJson (l : List (Option OAuthApp)) : JValue :=
  .jarr (l.map (fun x => match x with | some a => a.ToJson | none => JValue.jnull))

/-- The source's first-invalid-entry scan agrees with the spec's rule 8 and the
surrounding rules: `IsValid` computes exactly the spec's ordered first-failure
validation. -/
theorem isValid_eq_validateSpec (a : OAuthApp) : a.IsValid = validateSpec a := by
  unfold OAuthApp.IsValid validateSpec
  by_cases h1 : a.id.utf8ByteSize = 26
  case neg => rw [if_pos h1, if_neg h1]
  case pos =>
  rw [if_neg (not_not_intro h1), if_pos h1]
  by_cases h2 : a.createAt = 0
  case pos => rw [if_pos h2, if_neg (not_not_intro h2)]
  case neg =>
  rw [if_neg h2, if_pos h2]
  by_cases h3 : a.updateAt = 0
  case pos => rw [if_pos h3, if_neg (not_not_intro h3)]
  case neg =>
  rw [if_neg h3, if_pos h3]
  by_cases h4 : a.creatorId.utf8ByteSize = 26
  case neg => rw [if_pos h4, if_neg h4]
  case pos =>
  rw [if_neg (not_not_intro h4), if_pos h4]
  by_cases h5 : 1 ≤ a.clientSecret.utf8ByteSize ∧ a.clientSecret.utf8ByteSize ≤ 128
  case neg =>
    rw [if_pos (show a.clientSecret.utf8ByteSize = 0 ∨ a.clientSecret.utf8ByteSize > 128 by omega),
      if_neg h5]
  case pos =>
  rw [if_neg (show ¬ (a.clientSecret.utf8ByteSize = 0 ∨ a.clientSecret.utf8ByteSize > 128) by omega),
    if_pos h5]
  by_cases h6 : 1 ≤ a.name.utf8ByteSize ∧ a.name.utf8ByteSize ≤ 64
  case neg =>
    rw [if_pos (show a.name.utf8ByteSize = 0 ∨ a.name.utf8ByteSize > 64 by omega), if_neg h6]
  case pos =>
  rw [if_neg (show ¬ (a.name.utf8ByteSize = 0 ∨ a.name.utf8ByteSize > 64) by omega), if_pos h6]
  by_cases h7 : a.callbackUrls ≠ [] ∧ (sprintfStringArray a.callbackUrls).utf8ByteSize ≤ 1024
  case neg =>
    have hcond : a.callbackUrls.length = 0 ∨ (sprintfStringArray a.callbackUrls).utf8ByteSize > 1024 := by
      by_cases hnil : a.callbackUrls = []
      · exact Or.inl (by simp [hnil])
      · have hgt : ¬ (sprintfStringArray a.callbackUrls).utf8ByteSize ≤ 1024 :=
          fun hle => h7 ⟨hnil, hle⟩
        omega
    rw [if_pos hcond, if_neg h7]
  case pos =>
  have hlen : a.callbackUrls.length ≠ 0 := fun h => h7.1 (List.length_eq_zero.mp h)
  have h7b := h7.2
  rw [if_neg (show ¬ (a.callbackUrls.length = 0 ∨ (sprintfStringArray a.callbackUrls).utf8ByteSize > 1024) by omega),
    if_pos h7]
  by_cases h8 : a.callbackUrls.all (fun callback => IsValidHttpUrl callback) = true
  case pos =>
    have hf : a.callbackUrls.find? (fun callback => ! IsValidHttpUrl callback) = none := by
      rw [List.find?_eq_none]
      intro x hx
      simp [List.all_eq_true.mp h8 x hx]
    rw [if_neg (show ¬ ((a.callbackUrls.find? (fun callback => ! IsValidHttpUrl callback)).isSome = true) by
        simp [hf]),
      if_pos h8]
    by_cases h9 : 1 ≤ a.homepage.utf8ByteSize ∧ a.homepage.utf8ByteSize ≤ 256 ∧ IsValidHttpUrl a.homepage = true
    case neg =>
      have hcond : a.homepage.utf8ByteSize = 0 ∨ a.homepage.utf8ByteSize > 256 ∨ IsValidHttpUrl a.homepage = false := by
        by_cases hv : IsValidHttpUrl a.homepage = true
        · have hnum : ¬ (1 ≤ a.homepage.utf8ByteSize ∧ a.homepage.utf8ByteSize ≤ 256) :=
            fun hh => h9 ⟨hh.1, hh.2, hv⟩
          rcases show a.homepage.utf8ByteSize = 0 ∨ a.homepage.utf8ByteSize > 256 by omega with h | h
          · exact Or.inl h
          · exact Or.inr (Or.inl h)
        · refine Or.inr (Or.inr ?_)
          revert hv
          cases IsValidHttpUrl a.homepage <;> simp
      rw [if_pos hcond, if_neg h9]
    case pos =>
    have h9' := h9
    obtain ⟨h9a, h9b, h9c⟩ := h9'
    have hneg : ¬ (a.homepage.utf8ByteSize = 0 ∨ a.homepage.utf8ByteSize > 256 ∨ IsValidHttpUrl a.homepage = false) := by
      rintro (h | h | h)
      · omega
      · omega
      · rw [h9c] at h
        exact Bool.noConfusion h
    rw [if_neg hneg, if_pos h9]
    by_cases h10 : a.description.length ≤ 512
    case neg => rw [if_pos (show a.description.length > 512 by omega), if_neg h10]
    case pos =>
    rw [if_neg (show ¬ a.description.length > 512 by omega), if_pos h10]
    by_cases h11 : 1 ≤ a.iconURL.utf8ByteSize → (a.iconURL.utf8ByteSize ≤ 512 ∧ IsValidHttpUrl a.iconURL = true)
    case neg =>
      have hcond : a.iconURL.utf8ByteSize > 0 ∧ (a.iconURL.utf8ByteSize > 512 ∨ IsValidHttpUrl a.iconURL = false) := by
        push_neg at h11
        obtain ⟨hp, hq⟩ := h11
        refine ⟨by omega, ?_⟩
        by_cases hle : a.iconURL.utf8ByteSize ≤ 512
        · have hv := hq hle
          refine Or.inr ?_
          revert hv
          cases IsValidHttpUrl a.iconURL <;> simp
        · exact Or.inl (by omega)
      rw [if_pos hcond, if_neg h11]
    case pos =>
    have hneg : ¬ (a.iconURL.utf8ByteSize > 0 ∧ (a.iconURL.utf8ByteSize > 512 ∨ IsValidHttpUrl a.iconURL = false)) := by
      rintro ⟨hp, hq⟩
      obtain ⟨hle, hv⟩ := h11 (by omega)
      rcases hq with hq | hq
      · omega
      · rw [hv] at hq
        exact Bool.noConfusion hq
    rw [if_neg hneg, if_pos h11]
  case neg =>
    have hex : ∃ x ∈ a.callbackUrls, IsValidHttpUrl x = false := by
      have h8' := h8
      rw [List.all_eq_true] at h8'
      push_neg at h8'
      obtain ⟨x, hx, hvx⟩ := h8'
      refine ⟨x, hx, ?_⟩
      revert hvx
      cases IsValidHttpUrl x <;> simp
    obtain ⟨x, hx, hvx⟩ := hex
    have hs : (a.callbackUrls.find? (fun callback => ! IsValidHttpUrl callback)).isSome = true := by
      rw [List.find?_isSome]
      exact ⟨x, hx, by simp [hvx]⟩
    rw [if_pos hs, if_neg h8]

/-- A context string of the form `app_id=<id>` is never the empty string. -/
theorem app_id_context_ne_empty (s : String) : "app_id=" ++ s ≠ "" := by
  intro h
  have hlen := congrArg String.length h
  have h7 : ("app_id=" : String).length = 7 := by decide
  rw [String.length_append, h7] at hlen
  simp at hlen

/-- If not every callback URL passes the predicate, some member fails it. -/
theorem exists_invalid_of_not_all (l : List String)
    (h : ¬ l.all (fun callback => IsValidHttpUrl callback) = true) :
    ∃ c ∈ l, IsValidHttpUrl c = false := by
  rw [List.all_eq_true] at h
  push_neg at h
  obtain ⟨x, hx, hvx⟩ := h
  refine ⟨x, hx, ?_⟩
  revert hvx
  cases IsValidHttpUrl x <;> simp

theorem intTag_injective {t t' : Int} (h : t ≠ t') : intTag t ≠ intTag t' := by
  intro heq
  have hl : ((if 0 ≤ t then 'p' else 'n') :: List.replicate t.natAbs 'x')
      = ((if 0 ≤ t' then 'p' else 'n') :: List.replicate t'.natAbs 'x') := by
    have hdata := congrArg String.data heq
    simpa [intTag] using hdata
  injection hl with hhead htail
  have hlen : t.natAbs = t'.natAbs := by
    have := congrArg List.length htail
    simpa using this
  by_cases h1 : 0 ≤ t <;> by_cases h2 : 0 ≤ t'
  · omega
  · rw [if_pos h1, if_neg h2] at hhead
    exact absurd hhead (by decide)
  · rw [if_neg h1, if_pos h2] at hhead
    exact absurd hhead (by decide)
  · omega

/-- C2: `validate` checks the eleven rules of §4.1 in the fixed order listed
there and returns the failure of the first violated rule (it accumulates
nothing): `IsValid` coincides with the spec-ordered first-failure validator
`validateSpec`; in particular any record whose id length is not 26 fails with
the id error code, whatever later rules would say. -/
theorem isValid_checks_rules_in_order :
    (∀ a : OAuthApp, a.IsValid = validateSpec a) ∧
    (∀ a : OAuthApp, a.id.utf8ByteSize ≠ 26 →
      a.IsValid = some (NewLocAppError "OAuthApp.IsValid" "model.oauth.is_valid.app_id.app_error" none "")) := by
  refine ⟨isValid_eq_validateSpec, fun a h => ?_⟩
  unfold OAuthApp.IsValid
  rw [if_pos h]

/-- Witness for C2: the zero record violates the id rule and also later rules
(`createAt = 0`, bad `creatorId`), yet reports the id failure. -/
theorem isValid_checks_rules_in_order_witness :
    OAuthApp.empty.id.utf8ByteSize ≠ 26 ∧ OAuthApp.empty.createAt = 0 ∧
    OAuthApp.empty.creatorId.utf8ByteSize ≠ 26 ∧
    OAuthApp.empty.IsValid
      = some (NewLocAppError "OAuthApp.IsValid" "model.oauth.is_valid.app_id.app_error" none "") :=
  ⟨by decide, by decide, by decide,
    isValid_checks_rules_in_order.2 OAuthApp.empty (by decide)⟩

/-- C6: `sanitize` always sets `clientSecret` to the empty string, is
idempotent, and modifies no field other than `clientSecret`. -/
theorem sanitize_clears_secret_idempotent :
    ∀ a : OAuthApp,
      a.Sanitize.clientSecret = "" ∧
      a.Sanitize.Sanitize = a.Sanitize ∧
      a.Sanitize.id = a.id ∧ a.Sanitize.creatorId = a.creatorId ∧
      a.Sanitize.createAt = a.createAt ∧ a.Sanitize.updateAt = a.updateAt ∧
      a.Sanitize.name = a.name ∧ a.Sanitize.description = a.description ∧
      a.Sanitize.iconURL = a.iconURL ∧ a.Sanitize.callbackUrls = a.callbackUrls ∧
      a.Sanitize.homepage = a.homepage ∧ a.Sanitize.isTrusted = a.isTrusted :=
  fun _ => ⟨rfl, rfl, rfl, rfl, rfl, rfl, rfl, rfl, rfl, rfl, rfl, rfl⟩

/-- C1: `isValidRedirectUrl(record, u)` returns true iff `u` is byte-for-byte
equal to some element of the record's `callbackUrls`; in particular, a candidate
differing from the single entry `https://example.com/cb` only by a trailing
slash, or only by the case of the scheme, returns false. -/
theorem isValidRedirectURL_iff_mem :
    (∀ (a : OAuthApp) (url : String),
      a.IsValidRedirectURL url = true ↔ url ∈ a.callbackUrls) ∧
    (OAuthApp.IsValidRedirectURL
        { OAuthApp.empty with callbackUrls := ["https://example.com/cb"] }
        "https://example.com/cb" = true) ∧
    (OAuthApp.IsValidRedirectURL
        { OAuthApp.empty with callbackUrls := ["https://example.com/cb"] }
        "https://example.com/cb/" = false) ∧
    (OAuthApp.IsValidRedirectURL
        { OAuthApp.empty with callbackUrls := ["https://example.com/cb"] }
        "HTTPS://example.com/cb" = false) := by
  refine ⟨fun a url => ?_, by decide, by decide, by decide⟩
  simp [OAuthApp.IsValidRedirectURL, List.any_eq_true]

/-- C4: `prepareForCreate` on a record with empty `id` and `clientSecret`
populates both with the 26-character generated values and sets
`createAt = updateAt`; a subsequent `prepareForUpdate` sets `updateAt` to the
new clock reading and changes nothing else; and `PreSave` never regenerates an
already non-empty `id` or `clientSecret`. -/
theorem preSave_preUpdate_lifecycle :
    (∀ (a : OAuthApp) (g1 g2 : String) (now : Int),
      a.id = "" → a.clientSecret = "" → g1.length = 26 → g2.length = 26 →
      (a.PreSave g1 g2 now).id.length = 26 ∧
      (a.PreSave g1 g2 now).clientSecret.length = 26 ∧
      (a.PreSave g1 g2 now).createAt = (a.PreSave g1 g2 now).updateAt) ∧
    (∀ (b : OAuthApp) (now2 : Int),
      (b.PreUpdate now2).updateAt = now2 ∧ (b.PreUpdate now2).createAt = b.createAt ∧
      (b.PreUpdate now2).id = b.id ∧ (b.PreUpdate now2).clientSecret = b.clientSecret ∧
      (b.PreUpdate now2).creatorId = b.creatorId ∧ (b.PreUpdate now2).name = b.name ∧
      (b.PreUpdate now2).description = b.description ∧ (b.PreUpdate now2).iconURL = b.iconURL ∧
      (b.PreUpdate now2).callbackUrls = b.callbackUrls ∧ (b.PreUpdate now2).homepage = b.homepage ∧
      (b.PreUpdate now2).isTrusted = b.isTrusted) ∧
    (∀ (b : OAuthApp) (g1 g2 : String) (now : Int),
      b.id ≠ "" → (b.PreSave g1 g2 now).id = b.id) ∧
    (∀ (b : OAuthApp) (g1 g2 : String) (now : Int),
      b.clientSecret ≠ "" → (b.PreSave g1 g2 now).clientSecret = b.clientSecret) := by
  refine ⟨?_, ?_, ?_, ?_⟩
  · intro a g1 g2 now hid hsec hg1 hg2
    refine ⟨?_, ?_, rfl⟩
    · simp [OAuthApp.PreSave, hid, hsec, hg1]
    · simp [OAuthApp.PreSave, hid, hsec, hg2]
  · intro b now2
    exact ⟨rfl, rfl, rfl, rfl, rfl, rfl, rfl, rfl, rfl, rfl, rfl⟩
  · intro b g1 g2 now hb
    simp only [OAuthApp.PreSave]
    rw [if_neg hb]
    split <;> rfl
  · intro b g1 g2 now hc
    by_cases hb : b.id = ""
    · simp [OAuthApp.PreSave, hb, hc]
    · simp [OAuthApp.PreSave, hb, hc]

/-- Witness for C4: concrete 26-character generator outputs and concrete clock
readings exercise every part of the lifecycle law. -/
theorem preSave_preUpdate_lifecycle_witness :
    (OAuthApp.empty.PreSave "abcdefghijklmnopqrstuvwxyz" "abcdefghijklmnopqrstuvwxy0" 5).id.length = 26 ∧
    (OAuthApp.empty.PreSave "abcdefghijklmnopqrstuvwxyz" "abcdefghijklmnopqrstuvwxy0" 5).clientSecret.length = 26 ∧
    (OAuthApp.empty.PreSave "abcdefghijklmnopqrstuvwxyz" "abcdefghijklmnopqrstuvwxy0" 5).createAt
      = (OAuthApp.empty.PreSave "abcdefghijklmnopqrstuvwxyz" "abcdefghijklmnopqrstuvwxy0" 5).updateAt ∧
    ((OAuthApp.empty.PreSave "abcdefghijklmnopqrstuvwxyz" "abcdefghijklmnopqrstuvwxy0" 5).PreUpdate 9).updateAt = 9 ∧
    ((OAuthApp.empty.PreSave "abcdefghijklmnopqrstuvwxyz" "abcdefghijklmnopqrstuvwxy0" 5).PreUpdate 9).createAt
      = (OAuthApp.empty.PreSave "abcdefghijklmnopqrstuvwxyz" "abcdefghijklmnopqrstuvwxy0" 5).createAt ∧
    ({ OAuthApp.empty with id := "x" }.PreSave "g" "h" 5).id = { OAuthApp.empty with id := "x" }.id ∧
    ({ OAuthApp.empty with clientSecret := "s" }.PreSave "g" "h" 5).clientSecret
      = { OAuthApp.empty with clientSecret := "s" }.clientSecret := by
  obtain ⟨h1, h2, h3⟩ :=
    preSave_preUpdate_lifecycle.1 OAuthApp.empty "abcdefghijklmnopqrstuvwxyz"
      "abcdefghijklmnopqrstuvwxy0" 5 rfl rfl (by decide) (by decide)
  obtain ⟨h4, h5, -⟩ :=
    preSave_preUpdate_lifecycle.2.1
      (OAuthApp.empty.PreSave "abcdefghijklmnopqrstuvwxyz" "abcdefghijklmnopqrstuvwxy0" 5) 9
  exact ⟨h1, h2, h3, h4, h5,
    preSave_preUpdate_lifecycle.2.2.1 { OAuthApp.empty with id := "x" } "g" "h" 5 (by decide),
    preSave_preUpdate_lifecycle.2.2.2 { OAuthApp.empty with clientSecret := "s" } "g" "h" 5 (by decide)⟩

/-- C7: `etag` always invokes the external `ComputeEtag` capability with
exactly the record's current `id` and `updateAt`; it is therefore deterministic
in `(id, updateAt)`, and whenever the capability separates distinct timestamps,
a change to `updateAt` changes the token. -/
theorem etag_deterministic_and_sensitive :
    (∀ (computeEtag : String → Int → String) (a : OAuthApp),
      a.Etag computeEtag = computeEtag a.id a.updateAt) ∧
    (∀ (computeEtag : String → Int → String) (a b : OAuthApp),
      a.id = b.id → a.updateAt = b.updateAt → a.Etag computeEtag = b.Etag computeEtag) ∧
    (∀ (computeEtag : String → Int → String),
      (∀ (i : String) (t t' : Int), t ≠ t' → computeEtag i t ≠ computeEtag i t') →
      ∀ a b : OAuthApp, a.id = b.id → a.updateAt ≠ b.updateAt →
        a.Etag computeEtag ≠ b.Etag computeEtag) := by
  refine ⟨fun f a => rfl, fun f a b hid hup => ?_, fun f hf a b hid hup => ?_⟩
  · simp [OAuthApp.Etag, hid, hup]
  · simpa [OAuthApp.Etag, hid] using hf b.id a.updateAt b.updateAt hup

/-- Witness for C7: with the injective concrete encoding `intTag`, two records
agreeing on `id` and `updateAt` share the token and a timestamp change flips it. -/
theorem etag_deterministic_and_sensitive_witness :
    OAuthApp.Etag (fun _ t => intTag t) { OAuthApp.empty with id := "a", clientSecret := "x" }
      = OAuthApp.Etag (fun _ t => intTag t) { OAuthApp.empty with id := "a", clientSecret := "y" } ∧
    OAuthApp.Etag (fun _ t => intTag t) { OAuthApp.empty with updateAt := 1 }
      ≠ OAuthApp.Etag (fun _ t => intTag t) { OAuthApp.empty with updateAt := 2 } :=
  ⟨etag_deterministic_and_sensitive.2.1 (fun _ t => intTag t)
      { OAuthApp.empty with id := "a", clientSecret := "x" }
      { OAuthApp.empty with id := "a", clientSecret := "y" } rfl rfl,
    etag_deterministic_and_sensitive.2.2 (fun _ t => intTag t)
      (fun _ t t' h => intTag_injective h)
      { OAuthApp.empty with updateAt := 1 } { OAuthApp.empty with updateAt := 2 }
      rfl (by decide)⟩

/-- C8: `validate` does not enforce `updateAt ≥ createAt`: any record that
satisfies the eleven rules of §4.1 (in particular both timestamps non-zero)
validates successfully even when `updateAt < createAt`. -/
theorem isValid_ignores_timestamp_order :
    ∀ a : OAuthApp,
      a.id.utf8ByteSize = 26 →
      a.createAt ≠ 0 →
      a.updateAt ≠ 0 →
      a.creatorId.utf8ByteSize = 26 →
      (1 ≤ a.clientSecret.utf8ByteSize ∧ a.clientSecret.utf8ByteSize ≤ 128) →
      (1 ≤ a.name.utf8ByteSize ∧ a.name.utf8ByteSize ≤ 64) →
      (a.callbackUrls ≠ [] ∧ (sprintfStringArray a.callbackUrls).utf8ByteSize ≤ 1024) →
      a.callbackUrls.all (fun callback => IsValidHttpUrl callback) = true →
      (1 ≤ a.homepage.utf8ByteSize ∧ a.homepage.utf8ByteSize ≤ 256 ∧ IsValidHttpUrl a.homepage = true) →
      a.description.length ≤ 512 →
      (1 ≤ a.iconURL.utf8ByteSize → (a.iconURL.utf8ByteSize ≤ 512 ∧ IsValidHttpUrl a.iconURL = true)) →
      a.updateAt < a.createAt →
      a.IsValid = none := by
  intro a h1 h2 h3 h4 h5 h6 h7 h8 h9 h10 h11 hlt
  rw [isValid_eq_validateSpec]
  unfold validateSpec
  rw [if_pos h1, if_pos h2, if_pos h3, if_pos h4, if_pos h5, if_pos h6, if_pos h7,
    if_pos h8, if_pos h9, if_pos h10, if_pos h11]

/-- Witness for C8: a fully rule-conforming record whose `updateAt` (1) is
strictly below its `createAt` (2) still validates. -/
theorem isValid_ignores_timestamp_order_witness :
    OAuthApp.IsValid
      { id := "abcdefghijklmnopqrstuvwxyz", creatorId := "abcdefghijklmnopqrstuvwxy0",
        createAt := 2, updateAt := 1, clientSecret := "secret", name := "app",
        description := "", iconURL := "", callbackUrls := ["https://example.com/cb"],
        homepage := "https://example.com", isTrusted := false } = none :=
  isValid_ignores_timestamp_order
    { id := "abcdefghijklmnopqrstuvwxyz", creatorId := "abcdefghijklmnopqrstuvwxy0",
      createAt := 2, updateAt := 1, clientSecret := "secret", name := "app",
      description := "", iconURL := "", callbackUrls := ["https://example.com/cb"],
      homepage := "https://example.com", isTrusted := false }
    (by decide) (by decide) (by decide) (by decide) (by decide) (by decide)
    (by decide) (by decide) (by decide) (by decide) (by decide) (by decide)

/-- Every failure `IsValid` can return is the id-length failure (empty
context), the per-entry callback failure (empty context), or carries the
context `app_id=` followed by the record's id. -/
theorem isValid_error_cases (a : OAuthApp) (e : AppError) (h : a.IsValid = some e) :
    (a.id.utf8ByteSize ≠ 26 ∧
      e = NewLocAppError "OAuthApp.IsValid" "model.oauth.is_valid.app_id.app_error" none "") ∨
    ((a.callbackUrls.find? (fun callback => ! IsValidHttpUrl callback)).isSome = true ∧
      e = NewLocAppError "OAuthApp.IsValid" "model.oauth.is_valid.callback.app_error" none "") ∨
    e.details = "app_id=" ++ a.id := by
  unfold OAuthApp.IsValid at h
  by_cases h1 : a.id.utf8ByteSize ≠ 26
  · rw [if_pos h1] at h
    injection h with he
    exact Or.inl ⟨h1, he.symm⟩
  rw [if_neg h1] at h
  by_cases h2 : a.createAt = 0
  · rw [if_pos h2] at h
    injection h with he
    refine Or.inr (Or.inr ?_)
    subst he
    rfl
  rw [if_neg h2] at h
  by_cases h3 : a.updateAt = 0
  · rw [if_pos h3] at h
    injection h with he
    refine Or.inr (Or.inr ?_)
    subst he
    rfl
  rw [if_neg h3] at h
  by_cases h4 : a.creatorId.utf8ByteSize ≠ 26
  · rw [if_pos h4] at h
    injection h with he
    refine Or.inr (Or.inr ?_)
    subst he
    rfl
  rw [if_neg h4] at h
  by_cases h5 : a.clientSecret.utf8ByteSize = 0 ∨ a.clientSecret.utf8ByteSize > 128
  · rw [if_pos h5] at h
    injection h with he
    refine Or.inr (Or.inr ?_)
    subst he
    rfl
  rw [if_neg h5] at h
  by_cases h6 : a.name.utf8ByteSize = 0 ∨ a.name.utf8ByteSize > 64
  · rw [if_pos h6] at h
    injection h with he
    refine Or.inr (Or.inr ?_)
    subst he
    rfl
  rw [if_neg h6] at h
  by_cases h7 : a.callbackUrls.length = 0 ∨ (sprintfStringArray a.callbackUrls).utf8ByteSize > 1024
  · rw [if_pos h7] at h
    injection h with he
    refine Or.inr (Or.inr ?_)
    subst he
    rfl
  rw [if_neg h7] at h
  by_cases h8 : (a.callbackUrls.find? (fun callback => ! IsValidHttpUrl callback)).isSome = true
  · rw [if_pos h8] at h
    injection h with he
    exact Or.inr (Or.inl ⟨h8, he.symm⟩)
  rw [if_neg h8] at h
  by_cases h9 : a.homepage.utf8ByteSize = 0 ∨ a.homepage.utf8ByteSize > 256 ∨ IsValidHttpUrl a.homepage = false
  · rw [if_pos h9] at h
    injection h with he
    refine Or.inr (Or.inr ?_)
    subst he
    rfl
  rw [if_neg h9] at h
  by_cases h10 : a.description.length > 512
  · rw [if_pos h10] at h
    injection h with he
    refine Or.inr (Or.inr ?_)
    subst he
    rfl
  rw [if_neg h10] at h
  by_cases h11 : a.iconURL.utf8ByteSize > 0 ∧ (a.iconURL.utf8ByteSize > 512 ∨ IsValidHttpUrl a.iconURL = false)
  · rw [if_pos h11] at h
    injection h with he
    refine Or.inr (Or.inr ?_)
    subst he
    rfl
  rw [if_neg h11] at h
  exact Option.noConfusion h

/-- C9: the id-length failure carries an empty context string, exactly like the
per-entry callback-URL failure; every other validation failure attaches the
context `app_id=` followed by the record's id. Hence a failure with empty
context can only be the id-length or per-entry callback failure. -/
theorem isValid_context_strings :
    (∀ a : OAuthApp, a.id.utf8ByteSize ≠ 26 →
      a.IsValid = some (NewLocAppError "OAuthApp.IsValid" "model.oauth.is_valid.app_id.app_error" none "")) ∧
    (∀ a : OAuthApp,
      a.id.utf8ByteSize = 26 → a.createAt ≠ 0 → a.updateAt ≠ 0 → a.creatorId.utf8ByteSize = 26 →
      (1 ≤ a.clientSecret.utf8ByteSize ∧ a.clientSecret.utf8ByteSize ≤ 128) →
      (1 ≤ a.name.utf8ByteSize ∧ a.name.utf8ByteSize ≤ 64) →
      (a.callbackUrls ≠ [] ∧ (sprintfStringArray a.callbackUrls).utf8ByteSize ≤ 1024) →
      ¬ a.callbackUrls.all (fun callback => IsValidHttpUrl callback) = true →
      a.IsValid = some (NewLocAppError "OAuthApp.IsValid" "model.oauth.is_valid.callback.app_error" none "")) ∧
    (∀ (a : OAuthApp) (e : AppError), a.IsValid = some e →
      e.details = "" ∨ e.details = "app_id=" ++ a.id) ∧
    (∀ (a : OAuthApp) (e : AppError), a.IsValid = some e → e.details = "" →
      a.id.utf8ByteSize ≠ 26 ∨ ∃ c ∈ a.callbackUrls, IsValidHttpUrl c = false) := by
  refine ⟨?_, ?_, ?_, ?_⟩
  · intro a h
    unfold OAuthApp.IsValid
    rw [if_pos h]
  · intro a h1 h2 h3 h4 h5 h6 h7 h8
    rw [isValid_eq_validateSpec]
    unfold validateSpec
    rw [if_pos h1, if_pos h2, if_pos h3, if_pos h4, if_pos h5, if_pos h6, if_pos h7, if_neg h8]
  · intro a e h
    rcases isValid_error_cases a e h with ⟨-, he⟩ | ⟨-, he⟩ | hd
    · exact Or.inl (by rw [he]; rfl)
    · exact Or.inl (by rw [he]; rfl)
    · exact Or.inr hd
  · intro a e h hd
    rcases isValid_error_cases a e h with ⟨hc, -⟩ | ⟨hc, -⟩ | happ
    · exact Or.inl hc
    · refine Or.inr ?_
      obtain ⟨x, hx, hp⟩ := List.find?_isSome.mp hc
      refine ⟨x, hx, ?_⟩
      revert hp
      cases IsValidHttpUrl x <;> simp
    · rw [hd] at happ
      exact absurd happ.symm (app_id_context_ne_empty a.id)

/-- Witness for C9: concrete records exercising the empty-context id failure,
the empty-context callback-entry failure, and the `app_id=` context of another
failure (bad name). -/
theorem isValid_context_strings_witness :
    OAuthApp.empty.IsValid
      = some (NewLocAppError "OAuthApp.IsValid" "model.oauth.is_valid.app_id.app_error" none "") ∧
    OAuthApp.IsValid
      { id := "abcdefghijklmnopqrstuvwxyz", creatorId := "abcdefghijklmnopqrstuvwxy0",
        createAt := 1, updateAt := 1, clientSecret := "s", name := "n",
        description := "", iconURL := "", callbackUrls := ["ftp://invalid"],
        homepage := "https://example.com", isTrusted := false }
      = some (NewLocAppError "OAuthApp.IsValid" "model.oauth.is_valid.callback.app_error" none "") ∧
    ((NewLocAppError "OAuthApp.IsValid" "model.oauth.is_valid.name.app_error" none
        "app_id=abcdefghijklmnopqrstuvwxyz").details = "" ∨
      (NewLocAppError "OAuthApp.IsValid" "model.oauth.is_valid.name.app_error" none
        "app_id=abcdefghijklmnopqrstuvwxyz").details
        = "app_id=" ++ (OAuthApp.mk "abcdefghijklmnopqrstuvwxyz" "abcdefghijklmnopqrstuvwxy0"
            1 1 "s" "" "" "" ["https://example.com/cb"] "https://example.com" false).id) ∧
    ((OAuthApp.mk "abcdefghijklmnopqrstuvwxyz" "abcdefghijklmnopqrstuvwxy0"
        1 1 "s" "n" "" "" ["ftp://invalid"] "https://example.com" false).id.utf8ByteSize ≠ 26 ∨
      ∃ c ∈ (OAuthApp.mk "abcdefghijklmnopqrstuvwxyz" "abcdefghijklmnopqrstuvwxy0"
        1 1 "s" "n" "" "" ["ftp://invalid"] "https://example.com" false).callbackUrls,
        IsValidHttpUrl c = false) := by
  refine ⟨isValid_context_strings.1 OAuthApp.empty (by decide), ?_, ?_, ?_⟩
  · exact isValid_context_strings.2.1
      { id := "abcdefghijklmnopqrstuvwxyz", creatorId := "abcdefghijklmnopqrstuvwxy0",
        createAt := 1, updateAt := 1, clientSecret := "s", name := "n",
        description := "", iconURL := "", callbackUrls := ["ftp://invalid"],
        homepage := "https://example.com", isTrusted := false }
      (by decide) (by decide) (by decide) (by decide) (by decide) (by decide)
      (by decide) (by decide)
  · exact isValid_context_strings.2.2.1
      (OAuthApp.mk "abcdefghijklmnopqrstuvwxyz" "abcdefghijklmnopqrstuvwxy0"
        1 1 "s" "" "" "" ["https://example.com/cb"] "https://example.com" false)
      (NewLocAppError "OAuthApp.IsValid" "model.oauth.is_valid.name.app_error" none
        "app_id=abcdefghijklmnopqrstuvwxyz")
      (by decide)
  · exact isValid_context_strings.2.2.2
      (OAuthApp.mk "abcdefghijklmnopqrstuvwxyz" "abcdefghijklmnopqrstuvwxy0"
        1 1 "s" "n" "" "" ["ftp://invalid"] "https://example.com" false)
      (NewLocAppError "OAuthApp.IsValid" "model.oauth.is_valid.callback.app_error" none "")
      (by decide) rfl

theorem decodeStringElems_map_jstr (l : List String) :
    decodeStringElems (l.map JValue.jstr) = some l := by
  induction l with
  | nil => rfl
  | cons s rest ih => simp [decodeStringElems, decodeJStringElem, ih]

/-- Decoding recovers every serialized record. -/
theorem decodeOAuthApp_toJson (a : OAuthApp) : decodeOAuthApp a.ToJson = some a := by
  cases a
  simp +decide [OAuthApp.ToJson, decodeOAuthApp, decodeFields, applyField,
    decodeJString, decodeJInt, decodeJBool, decodeJStringArray,
    decodeStringElems_map_jstr, OAuthApp.empty]

theorem decodePtrOAuthApp_toJson (a : OAuthApp) : decodePtrOAuthApp a.ToJson = some (some a) := by
  have h : decodePtrOAuthApp a.ToJson = (decodeOAuthApp a.ToJson).map some := rfl
  rw [h, decodeOAuthApp_toJson]
  rfl

theorem decodePtrElems_toJson (l : List (Option OAuthApp)) :
    decodePtrElems (l.map (fun x => match x with | some a => a.ToJson | none => JValue.jnull))
      = some l := by
  induction l with
  | nil => rfl
  | cons x rest ih =>
    cases x with
    | none => simp [decodePtrElems, decodePtrOAuthApp, ih]
    | some a => simp [decodePtrElems, decodePtrOAuthApp_toJson, ih]

/-- C3: deserializing the result of serializing a record —
`OAuthAppFromJson` composed with `ToJson` — yields a record equal to the
original in all eleven fields (so in particular for every validly constructed
record). -/
theorem fromJson_toJson_roundtrip :
    ∀ a : OAuthApp, OAuthAppFromJson (some a.ToJson) = some a :=
  fun a => decodeOAuthApp_toJson a

/-- C5: the three deserializers are total functions into `Option`: on
unparseable text (`none`) and on every structurally malformed or mismatched
tree they yield absence, and on well-formed input they yield exactly the
decoded value. -/
theorem deserializers_absence_on_malformed :
    (OAuthAppFromJson none = none ∧ OAuthAppMapFromJson none = none ∧
      OAuthAppListFromJson none = none) ∧
    ((∀ b, OAuthAppFromJson (some (JValue.jbool b)) = none) ∧
      (∀ n, OAuthAppFromJson (some (JValue.jint n)) = none) ∧
      (∀ s, OAuthAppFromJson (some (JValue.jstr s)) = none) ∧
      (∀ es, OAuthAppFromJson (some (JValue.jarr es)) = none) ∧
      (∀ n, OAuthAppFromJson (some (JValue.jobj [("id", JValue.jint n)])) = none) ∧
      OAuthAppMapFromJson (some JValue.jnull) = none ∧
      (∀ es, OAuthAppMapFromJson (some (JValue.jarr es)) = none) ∧
      (∀ k s, OAuthAppMapFromJson (some (JValue.jobj [(k, JValue.jstr s)])) = none) ∧
      OAuthAppListFromJson (some JValue.jnull) = none ∧
      (∀ fs, OAuthAppListFromJson (some (JValue.jobj fs)) = none) ∧
      (∀ s, OAuthAppListFromJson (some (JValue.jarr [JValue.jstr s])) = none)) ∧
    ((∀ a, OAuthAppFromJson (some a.ToJson) = some a) ∧
      (∀ l, OAuthAppListFromJson (some (OAuthAppListToJson l)) = some l) ∧
      (∀ k a, OAuthAppMapFromJson (some (JValue.jobj [(k, a.ToJson)])) = some [(k, some a)]) ∧
      (∀ k, OAuthAppMapFromJson (some (JValue.jobj [(k, JValue.jnull)])) = some [(k, none)])) := by
  refine ⟨⟨rfl, rfl, rfl⟩,
    ⟨fun b => rfl, fun n => rfl, fun s => rfl, fun es => rfl, ?_, rfl, fun es => rfl, ?_, rfl,
      fun fs => rfl, fun s => rfl⟩,
    ⟨fun a => decodeOAuthApp_toJson a, ?_, ?_, fun k => rfl⟩⟩
  · intro n
    simp +decide [OAuthAppFromJson, decodeOAuthApp, decodeFields, applyField, decodeJString]
  · intro k s
    simp [OAuthAppMapFromJson, decodeMapEntries, decodePtrOAuthApp, decodeOAuthApp]
  · intro l
    simp [OAuthAppListFromJson, OAuthAppListToJson, decodePtrElems_toJson]
  · intro k a
    simp [OAuthAppMapFromJson, decodeMapEntries, decodePtrOAuthApp_toJson, mapInsert]

/-- C10: deserialization performs no validation: the well-formed empty object
decodes to the zero record (empty id and secret, zero timestamps, empty
callback list), which fails `IsValid`; a non-nil deserialization result does
not imply a valid record. -/
theorem deserialization_no_validation :
    OAuthAppFromJson (some (JValue.jobj [])) = some OAuthApp.empty ∧
    OAuthApp.empty.id = "" ∧ OAuthApp.empty.clientSecret = "" ∧
    OAuthApp.empty.createAt = 0 ∧ OAuthApp.empty.updateAt = 0 ∧
    OAuthApp.empty.callbackUrls = [] ∧
    OAuthApp.empty.IsValid
      = some (NewLocAppError "OAuthApp.IsValid" "model.oauth.is_valid.app_id.app_error" none "") :=
  ⟨rfl, rfl, rfl, rfl, rfl, rfl, by decide⟩
